import Mathlib

/-!
Verification development for the GPSAtomS3 telemetry firmware (`src/GPS.ino`,
BLE-enabled revision).  The C++ source is shallowly embedded: C `double`/`float`
quantities are modelled as rationals (`ℚ`), machine counters and `millis()`
timestamps as `Nat` (the device clock is monotone within a session), and the
`snprintf`-built NMEA sentences as `List Char`.  Stateful fragments of `loop()`
and the BLE callbacks are modelled as explicit step functions on small state
records.
-/

namespace GPSAtomS3

/-! ## Data model

`FixField` mirrors the TinyGPSPlus per-field `(value, isValid)` interface that
`GPS.ino` consumes; `FixSnapshot` gathers every field `generateGGA` and the
display views read.
-/

structure FixField (α : Type) where
  value : α
  valid : Bool
deriving Repr

/-- TinyGPSLocation fix-quality classification as matched in `displaySatelliteView`. -/
inductive FixQualityClass
  | Invalid
  | GPS
  | DGPS
  | FloatRTK
  | RTK
deriving DecidableEq, Repr

structure GpsLocation where
  lat : ℚ
  lng : ℚ
  valid : Bool
  fixQuality : FixQualityClass
deriving Repr

structure GpsTime where
  hour : Nat
  minute : Nat
  second : Nat
  centisecond : Nat
deriving Repr

structure FixSnapshot where
  location : GpsLocation
  time : FixField GpsTime
  satellites : FixField Nat
  hdop : FixField ℚ
  altitude : FixField ℚ
  speed : FixField ℚ
  course : FixField ℚ
deriving Repr

/-! ## Decimal / fixed-point formatting

Models of the `snprintf` conversions used by `generateGGA`:
`%0Nd` (`natPad`), `%.Df` (`fmtFixed1` for `%.1f`), and `%09.6f` (`fmtFixed96`).
Rounding of the scaled magnitude is to nearest (half up), matching printf's
round-to-nearest on the idealized rational values.
-/

def decDigit (d : Nat) : Char :=
  if d = 0 then '0' else if d = 1 then '1' else if d = 2 then '2'
  else if d = 3 then '3' else if d = 4 then '4' else if d = 5 then '5'
  else if d = 6 then '6' else if d = 7 then '7' else if d = 8 then '8' else '9'

def natToDigitsAux : Nat → Nat → List Char
  | 0, _ => []
  | fuel + 1, n =>
    if n < 10 then [decDigit n]
    else natToDigitsAux fuel (n / 10) ++ [decDigit (n % 10)]

/-- Decimal rendering of a natural number, most significant digit first (`%d`). -/
def natToDigits (n : Nat) : List Char := natToDigitsAux (n + 1) n

/-- Left-pad with '0' to the given width (`%0Nd` and the zero-fill of `%09.6f`). -/
def padZero (w : Nat) (l : List Char) : List Char :=
  List.replicate (w - l.length) '0' ++ l

def natPad (w n : Nat) : List Char := padZero w (natToDigits n)

/-- Round a nonnegative rational to the nearest natural (half up). -/
def ratRound (q : ℚ) : Nat := (⌊q + 1/2⌋).toNat

/-- Fixed-point rendering of a nonnegative rational with `d` decimal places. -/
def fmtFixedNN (d : Nat) (q : ℚ) : List Char :=
  let m := ratRound (q * 10 ^ d)
  natToDigits (m / 10 ^ d) ++ '.' :: natPad d (m % 10 ^ d)

/-- `%.1f`: sign from the value, one decimal place on the magnitude. -/
def fmtFixed1 (q : ℚ) : List Char :=
  if q < 0 then '-' :: fmtFixedNN 1 (-q) else fmtFixedNN 1 q

/-- `%09.6f` on a nonnegative value: six decimals, zero-filled to width 9. -/
def fmtFixed96 (q : ℚ) : List Char := padZero 9 (fmtFixedNN 6 q)

/-! ## Checksum arithmetic

`calcNmeaChecksum` keeps its accumulator in a C `uint8_t`; `byteXor` is the
8-bit exclusive or, defined bit-recursively so that it evaluates in the kernel.
-/

def xorAux : Nat → Nat → Nat → Nat
  | 0, _, _ => 0
  | fuel + 1, a, b =>
    (if a % 2 = b % 2 then 0 else 1) + 2 * xorAux fuel (a / 2) (b / 2)

/-- Exclusive or of the low 8 bits of two naturals (`uint8_t ^`). -/
def byteXor (a b : Nat) : Nat := xorAux 8 a b

/-- Loop body of `calcNmeaChecksum`: running XOR until `'*'` or end of string. -/
def calcNmeaChecksumGo : Nat → List Char → Nat
  | acc, [] => acc
  | acc, c :: rest =>
    if c = '*' then acc else calcNmeaChecksumGo (byteXor acc c.toNat) rest

/-- `calcNmeaChecksum`: XOR of all characters after the leading `'$'`, stopping
at the first `'*'` (or the end of the string). -/
def calcNmeaChecksum (l : List Char) : Nat := calcNmeaChecksumGo 0 (l.drop 1)

def hexDigitU (d : Nat) : Char :=
  if d = 0 then '0' else if d = 1 then '1' else if d = 2 then '2'
  else if d = 3 then '3' else if d = 4 then '4' else if d = 5 then '5'
  else if d = 6 then '6' else if d = 7 then '7' else if d = 8 then '8'
  else if d = 9 then '9' else if d = 10 then 'A' else if d = 11 then 'B'
  else if d = 12 then 'C' else if d = 13 then 'D' else if d = 14 then 'E' else 'F'

/-- `%02X` rendering of a byte value. -/
def hexByte (n : Nat) : List Char := [hexDigitU (n / 16), hexDigitU (n % 16)]

/-! ## The GGA sentence encoder (`generateGGA`) -/

def ggaTimeStr (s : FixSnapshot) : List Char :=
  if s.time.valid then
    natPad 2 s.time.value.hour ++ natPad 2 s.time.value.minute ++
      natPad 2 s.time.value.second ++ '.' :: natPad 3 (s.time.value.centisecond * 10)
  else "000000.000".toList

def ggaLatStr (s : FixSnapshot) : List Char :=
  if s.location.valid then
    let l := |s.location.lat|
    let latDeg : Nat := (⌊l⌋).toNat
    natPad 2 latDeg ++ fmtFixed96 ((l - (latDeg : ℚ)) * 60)
  else []

def ggaLatDir (s : FixSnapshot) : Char :=
  if s.location.valid then (if s.location.lat ≥ 0 then 'N' else 'S') else 'N'

def ggaLonStr (s : FixSnapshot) : List Char :=
  if s.location.valid then
    let l := |s.location.lng|
    let lonDeg : Nat := (⌊l⌋).toNat
    natPad 3 lonDeg ++ fmtFixed96 ((l - (lonDeg : ℚ)) * 60)
  else []

def ggaLonDir (s : FixSnapshot) : Char :=
  if s.location.valid then (if s.location.lng ≥ 0 then 'E' else 'W') else 'E'

def ggaFixQuality (s : FixSnapshot) : Nat := if s.location.valid then 1 else 0

def ggaNumSats (s : FixSnapshot) : Nat :=
  if s.satellites.valid then s.satellites.value else 0

def ggaHdop (s : FixSnapshot) : ℚ := if s.hdop.valid then s.hdop.value else 999/10

def ggaAltitude (s : FixSnapshot) : ℚ :=
  if s.altitude.valid then s.altitude.value else 0

/-- The 15 comma-separated fields of the template
`"$GPGGA,%s,%s,%c,%s,%c,%d,%02d,%.1f,%.1f,M,0.0,M,,*"`. -/
def ggaFields (s : FixSnapshot) : List (List Char) :=
  ["GPGGA".toList, ggaTimeStr s, ggaLatStr s, [ggaLatDir s], ggaLonStr s,
   [ggaLonDir s], natToDigits (ggaFixQuality s), natPad 2 (ggaNumSats s),
   fmtFixed1 (ggaHdop s), fmtFixed1 (ggaAltitude s),
   ['M'], "0.0".toList, ['M'], [], []]

def intercalateComma : List (List Char) → List Char
  | [] => []
  | [f] => f
  | f :: fs => f ++ ',' :: intercalateComma fs

/-- The `sentence` buffer: `'$'`, the comma-joined fields, and the trailing `'*'`. -/
def ggaSentence (s : FixSnapshot) : List Char :=
  '$' :: intercalateComma (ggaFields s) ++ ['*']

/-- Model of `String.replace("**", "*")`, applied to the finished sentence. -/
def replaceStarStar : List Char → List Char
  | [] => []
  | [c] => [c]
  | c1 :: c2 :: rest =>
    if c1 = '*' then
      if c2 = '*' then '*' :: replaceStarStar rest
      else c1 :: replaceStarStar (c2 :: rest)
    else c1 :: replaceStarStar (c2 :: rest)

/-- `generateGGA`: sentence, appended `%02X` checksum, CRLF, and the
`replace("**", "*")` cleanup pass. -/
def generateGGA (s : FixSnapshot) : List Char :=
  replaceStarStar
    (ggaSentence s ++ hexByte (calcNmeaChecksum (ggaSentence s)) ++ ['\r', '\n'])

/-! ## Sentence re-parsing

These definitions state properties of the emitted sentence from the receiving
side: locating the `'$'`/`'*'` frame (byte 36 / byte 42), splitting the payload
at commas (byte 44), and re-validating the appended checksum exactly as the
spec describes it.
-/

/-- True for every byte except the `'*'` frame terminator (byte 42). -/
def noStar (c : Char) : Bool := c.toNat != 42

/-- The bytes strictly between the leading `'$'` and the first `'*'`. -/
def ggaPayload (l : List Char) : List Char := (l.drop 1).takeWhile noStar

/-- Split a payload at commas (byte 44) into its fields. -/
def splitOnComma : List Char → List (List Char)
  | [] => [[]]
  | c :: rest =>
    if c.toNat = 44 then [] :: splitOnComma rest
    else
      match splitOnComma rest with
      | f :: fs => (c :: f) :: fs
      | [] => [[c]]

/-- The comma-separated fields between a sentence's `'$'` and `'*'`. -/
def sentenceFields (l : List Char) : List (List Char) := splitOnComma (ggaPayload l)

/-- Uppercase hexadecimal digit: `'0'`–`'9'` or `'A'`–`'F'`. -/
def isHexDigitU (c : Char) : Bool :=
  (48 ≤ c.toNat && c.toNat ≤ 57) || (65 ≤ c.toNat && c.toNat ≤ 70)

/-- Numeric value of an uppercase hexadecimal digit. -/
def hexVal (c : Char) : Nat := if c.toNat ≤ 57 then c.toNat - 48 else c.toNat - 55

/-- Receiver-side checksum validation: the sentence starts with `'$'` (byte 36),
the XOR of every byte strictly between `'$'` and the first `'*'` is recomputed,
and it must equal the value of the two uppercase hex digits following `'*'`. -/
def checksumValid (l : List Char) : Bool :=
  match l with
  | [] => false
  | c :: rest =>
    if c.toNat = 36 then
      match rest.dropWhile noStar with
      | _ :: h1 :: h2 :: _ =>
        isHexDigitU h1 && isHexDigitU h2 &&
          ((rest.takeWhile noStar).foldl (fun a ch => byteXor a ch.toNat) 0
            == hexVal h1 * 16 + hexVal h2)
      | _ => false
    else false

/-! ## BLE relay controller

State touched by `ServerCallbacks::onConnect` / `onDisconnect` and the
transmit-cadence branch of `loop()`.  `BleEvent.tick now` is one loop iteration
observed at `millis() = now`; emissions record what `pTxCharacteristic.notify`
sends (the BLE stack is initialized, so `pTxCharacteristic` is non-null).
-/

structure BleState where
  bleConnected : Bool
  lastBleTransmit : Nat
deriving Repr

inductive BleEvent
  | connect
  | disconnect
  | tick (now : Nat)
deriving Repr

inductive BleMsg
  | info
  | gga (now : Nat)
deriving DecidableEq, Repr

/-- One BLE-relevant event: `onConnect` flags the connection and synchronously
sends the `$PATOM` identification sentence; `onDisconnect` clears the flag (and
restarts advertising); a loop tick sends a GGA sentence when connected and
`millis() - lastBleTransmit > BLE_TRANSMIT_INTERVAL` (1000 ms). -/
def bleStep : BleState → BleEvent → BleState × List BleMsg
  | st, .connect => ({ st with bleConnected := true }, [.info])
  | st, .disconnect => ({ st with bleConnected := false }, [])
  | st, .tick now =>
    if st.bleConnected ∧ now - st.lastBleTransmit > 1000 then
      ({ st with lastBleTransmit := now }, [.gga now])
    else (st, [])

def bleRun : BleState → List BleEvent → BleState × List BleMsg
  | st, [] => (st, [])
  | st, e :: evs =>
    let r1 := bleStep st e
    let r2 := bleRun r1.1 evs
    (r2.1, r1.2 ++ r2.2)

/-- Timestamps of the GGA position sentences in an emission trace. -/
def ggaTimes (msgs : List BleMsg) : List Nat :=
  msgs.filterMap fun m => match m with | .gga t => some t | .info => none

/-! ## Persistence cadence controller

The NVS save branch of `loop()`: when the location is valid and
`millis() - lastSaveTime > SAVE_INTERVAL` (60000 ms), the position is written
to the store and mirrored into `lastLat`/`lastLng`/`hasLastPosition`.
-/

structure PersistState where
  lastSaveTime : Nat
  lastLat : ℚ
  lastLng : ℚ
  hasLastPosition : Bool
deriving Repr

structure GpsSample where
  locValid : Bool
  lat : ℚ
  lng : ℚ
deriving Repr

/-- One loop iteration of the save branch at `millis() = now`; the second
component lists the store writes (timestamp and coordinates) it performs. -/
def persistStep (st : PersistState) (now : Nat) (g : GpsSample) :
    PersistState × List (Nat × ℚ × ℚ) :=
  if g.locValid then
    if now - st.lastSaveTime > 60000 then
      (⟨now, g.lat, g.lng, true⟩, [(now, g.lat, g.lng)])
    else (st, [])
  else (st, [])

def persistRun : PersistState → List (Nat × GpsSample) → PersistState × List (Nat × ℚ × ℚ)
  | st, [] => (st, [])
  | st, e :: evs =>
    let r1 := persistStep st e.1 e.2
    let r2 := persistRun r1.1 evs
    (r2.1, r1.2 ++ r2.2)

/-! ## View selector and brightness -/

/-- `MODE_COUNT`: the display-mode cycle length (Main, Satellites, SpeedAlt). -/
def MODE_COUNT : Nat := 3

/-- `BRIGHTNESS_COUNT`: the brightness table length (high, medium, low). -/
def BRIGHTNESS_COUNT : Nat := 3

structure UiState where
  currentMode : Nat
  brightnessIndex : Nat
deriving Repr

inductive ButtonEvent
  | shortPress
  | longPress
deriving DecidableEq, Repr

/-- Button dispatch in `loop()`: `wasHold()` cycles the brightness index,
otherwise `wasClicked()` cycles the display mode; the two are exclusive per
iteration. -/
def uiStep (st : UiState) : ButtonEvent → UiState
  | .longPress => { st with brightnessIndex := (st.brightnessIndex + 1) % BRIGHTNESS_COUNT }
  | .shortPress => { st with currentMode := (st.currentMode + 1) % MODE_COUNT }

def uiRun (st : UiState) (evs : List ButtonEvent) : UiState := evs.foldl uiStep st

def countShort (evs : List ButtonEvent) : Nat :=
  (evs.filter fun e => match e with | .shortPress => true | .longPress => false).length

/-! ## HDOP display classification (`displaySatelliteView`) -/

inductive HdopClass
  | ideal
  | excellent
  | good
  | moderate
deriving DecidableEq, Repr

/-- The HDOP label chosen by `displaySatelliteView` for a valid HDOP value. -/
def hdopClass (h : ℚ) : HdopClass :=
  if h < 1 then .ideal
  else if h < 2 then .excellent
  else if h < 5 then .good
  else .moderate

/-! ## Startup position load (`setup`) -/

/-- The NVS read in `setup()`: if the `"lat"` key exists, load both coordinates
and set `hasLastPosition := (lastLat != 0.0 || lastLng != 0.0)`; otherwise the
globals keep their zero/false initializers.  Result: `(lastLat, lastLng,
hasLastPosition)`. -/
def loadLastPosition (stored : Option (ℚ × ℚ)) : ℚ × ℚ × Bool :=
  match stored with
  | none => (0, 0, false)
  | some p => (p.1, p.2, decide (p.1 ≠ 0) || decide (p.2 ≠ 0))

/-! ## Character-class lemmas

Every character of every GGA field is a plain ASCII character distinct from
the `'*'` frame terminator (byte 42) and the `','` separator (byte 44); this
is what lets the receiver-side parser recover the fields and the checksum.
-/

/-- A field byte: ASCII, not `'*'`, not `','`. -/
abbrev okChar (c : Char) : Prop := c.toNat < 128 ∧ c.toNat ≠ 42 ∧ c.toNat ≠ 44

lemma decDigit_bounds (d : Nat) :
    48 ≤ (decDigit d).toNat ∧ (decDigit d).toNat ≤ 57 := by
  unfold decDigit
  repeat' split
  all_goals decide

lemma natToDigitsAux_bounds :
    ∀ fuel n : Nat, ∀ c ∈ natToDigitsAux fuel n,
      48 ≤ c.toNat ∧ c.toNat ≤ 57 := by
  intro fuel
  induction fuel with
  | zero => intro n c hc; simp [natToDigitsAux] at hc
  | succ fuel ih =>
    intro n c hc
    unfold natToDigitsAux at hc
    split at hc
    · simp at hc
      exact hc ▸ decDigit_bounds n
    · rcases List.mem_append.mp hc with h | h
      · exact ih _ c h
      · simp at h
        exact h ▸ decDigit_bounds (n % 10)

lemma natToDigits_bounds (n : Nat) :
    ∀ c ∈ natToDigits n, 48 ≤ c.toNat ∧ c.toNat ≤ 57 :=
  fun c hc => natToDigitsAux_bounds (n + 1) n c hc

lemma padZero_bounds (w : Nat) (l : List Char)
    (h : ∀ c ∈ l, 48 ≤ c.toNat ∧ c.toNat ≤ 57) :
    ∀ c ∈ padZero w l, 48 ≤ c.toNat ∧ c.toNat ≤ 57 := by
  intro c hc
  rcases List.mem_append.mp hc with h0 | h1
  · have := List.eq_of_mem_replicate h0
    subst this
    decide
  · exact h c h1

lemma natPad_bounds (w n : Nat) :
    ∀ c ∈ natPad w n, 48 ≤ c.toNat ∧ c.toNat ≤ 57 :=
  padZero_bounds w _ (natToDigits_bounds n)

lemma fmtFixedNN_bounds (d : Nat) (q : ℚ) :
    ∀ c ∈ fmtFixedNN d q, 46 ≤ c.toNat ∧ c.toNat ≤ 57 := by
  intro c hc
  unfold fmtFixedNN at hc
  rcases List.mem_append.mp hc with h | h
  · have := natToDigits_bounds _ c h
    omega
  · rcases List.mem_cons.mp h with rfl | h
    · decide
    · have := natPad_bounds d _ c h
      omega

lemma fmtFixed1_bounds (q : ℚ) :
    ∀ c ∈ fmtFixed1 q, 45 ≤ c.toNat ∧ c.toNat ≤ 57 := by
  intro c hc
  unfold fmtFixed1 at hc
  split at hc
  · rcases List.mem_cons.mp hc with rfl | h
    · decide
    · have := fmtFixedNN_bounds 1 _ c h
      omega
  · have := fmtFixedNN_bounds 1 _ c hc
    omega

lemma fmtFixed96_bounds (q : ℚ) :
    ∀ c ∈ fmtFixed96 q, 46 ≤ c.toNat ∧ c.toNat ≤ 57 := by
  intro c hc
  unfold fmtFixed96 at hc
  rcases List.mem_append.mp hc with h | h
  · have := List.eq_of_mem_replicate h
    subst this
    decide
  · exact fmtFixedNN_bounds 6 q c h

lemma ggaTimeStr_ok (s : FixSnapshot) : ∀ c ∈ ggaTimeStr s, okChar c := by
  intro c hc
  unfold ggaTimeStr at hc
  split at hc
  · simp only [List.append_assoc, List.mem_append, List.mem_cons] at hc
    have : 46 ≤ c.toNat ∧ c.toNat ≤ 57 := by
      rcases hc with h | h | h | rfl | h
      · have := natPad_bounds 2 _ c h; omega
      · have := natPad_bounds 2 _ c h; omega
      · have := natPad_bounds 2 _ c h; omega
      · decide
      · have := natPad_bounds 3 _ c h; omega
    exact ⟨by omega, by omega, by omega⟩
  · exact (by decide : ∀ x ∈ "000000.000".toList, okChar x) c hc

lemma ggaLatStr_ok (s : FixSnapshot) : ∀ c ∈ ggaLatStr s, okChar c := by
  intro c hc
  unfold ggaLatStr at hc
  split at hc
  · rcases List.mem_append.mp hc with h | h
    · have := natPad_bounds 2 _ c h
      exact ⟨by omega, by omega, by omega⟩
    · have := fmtFixed96_bounds _ c h
      exact ⟨by omega, by omega, by omega⟩
  · simp at hc

lemma ggaLonStr_ok (s : FixSnapshot) : ∀ c ∈ ggaLonStr s, okChar c := by
  intro c hc
  unfold ggaLonStr at hc
  split at hc
  · rcases List.mem_append.mp hc with h | h
    · have := natPad_bounds 3 _ c h
      exact ⟨by omega, by omega, by omega⟩
    · have := fmtFixed96_bounds _ c h
      exact ⟨by omega, by omega, by omega⟩
  · simp at hc

lemma ggaLatDir_ok (s : FixSnapshot) : okChar (ggaLatDir s) := by
  unfold ggaLatDir
  repeat' split
  all_goals decide

lemma ggaLonDir_ok (s : FixSnapshot) : okChar (ggaLonDir s) := by
  unfold ggaLonDir
  repeat' split
  all_goals decide

lemma ggaFields_ok (s : FixSnapshot) :
    ∀ f ∈ ggaFields s, ∀ c ∈ f, okChar c := by
  intro f hf
  unfold ggaFields at hf
  simp only [List.mem_cons, List.not_mem_nil, or_false] at hf
  rcases hf with rfl | rfl | rfl | rfl | rfl | rfl | rfl | rfl | rfl | rfl | rfl | rfl | rfl | rfl | rfl
  · decide
  · exact ggaTimeStr_ok s
  · exact ggaLatStr_ok s
  · intro c hc
    rcases List.mem_singleton.mp hc with rfl
    exact ggaLatDir_ok s
  · exact ggaLonStr_ok s
  · intro c hc
    rcases List.mem_singleton.mp hc with rfl
    exact ggaLonDir_ok s
  · intro c hc
    have := natToDigits_bounds _ c hc
    exact ⟨by omega, by omega, by omega⟩
  · intro c hc
    have := natPad_bounds 2 _ c hc
    exact ⟨by omega, by omega, by omega⟩
  · intro c hc
    have := fmtFixed1_bounds _ c hc
    exact ⟨by omega, by omega, by omega⟩
  · intro c hc
    have := fmtFixed1_bounds _ c hc
    exact ⟨by omega, by omega, by omega⟩
  · decide
  · decide
  · decide
  · decide
  · decide

lemma intercalateComma_ok :
    ∀ fs : List (List Char), (∀ f ∈ fs, ∀ c ∈ f, okChar c) →
      ∀ c ∈ intercalateComma fs, c.toNat < 128 ∧ c.toNat ≠ 42 := by
  intro fs
  induction fs with
  | nil => intro _ c hc; simp [intercalateComma] at hc
  | cons f fs ih =>
    intro h c hc
    cases fs with
    | nil =>
      have := h f (by simp) c (by simpa [intercalateComma] using hc)
      obtain ⟨h1, h2, h3⟩ := this; omega
    | cons g gs =>
      simp only [intercalateComma, List.mem_append, List.mem_cons] at hc
      rcases hc with h0 | rfl | h1
      · have := h f (by simp) c h0
        obtain ⟨h1, h2, h3⟩ := this; omega
      · decide
      · have : c ∈ intercalateComma (g :: gs) := h1
        exact ih (fun f' hf' => h f' (List.mem_cons_of_mem f hf')) c this

/-! ## Framing lemmas

The generated sentence contains exactly one `'*'`; hence the `replace("**",
"*")` pass is a no-op, the receiver finds the frame, and the comma-split
recovers the field list.
-/

lemma char_ne_star {c : Char} (h : c.toNat ≠ 42) : c ≠ '*' :=
  fun hc => h (by rw [hc]; rfl)

lemma replaceStarStar_append (l r : List Char) (h : ∀ c ∈ l, c.toNat ≠ 42) :
    replaceStarStar (l ++ r) = l ++ replaceStarStar r := by
  induction l with
  | nil => rfl
  | cons c l ih =>
    have hc : c ≠ '*' := char_ne_star (h c (List.mem_cons_self c l))
    rw [List.cons_append]
    rcases hd : l ++ r with _ | ⟨d, t⟩
    · rcases List.append_eq_nil.mp hd with ⟨rfl, rfl⟩
      rfl
    · show replaceStarStar (c :: d :: t) = c :: (l ++ replaceStarStar r)
      simp only [replaceStarStar]
      rw [if_neg hc, ← hd, ih (fun c' hc' => h c' (List.mem_cons_of_mem c hc'))]

lemma replaceStarStar_self (l : List Char) (h : ∀ c ∈ l, c.toNat ≠ 42) :
    replaceStarStar l = l := by
  have h2 := replaceStarStar_append l [] h
  rw [List.append_nil] at h2
  rw [h2]
  simp [replaceStarStar]

lemma replaceStarStar_star_cons (c : Char) (t : List Char) (h : c.toNat ≠ 42) :
    replaceStarStar ('*' :: c :: t) = '*' :: replaceStarStar (c :: t) := by
  simp [replaceStarStar, char_ne_star h]

lemma takeWhile_noStar_append (l r : List Char) (h : ∀ c ∈ l, c.toNat ≠ 42) :
    (l ++ '*' :: r).takeWhile noStar = l := by
  induction l with
  | nil => rw [List.nil_append, List.takeWhile_cons, if_neg (by decide)]
  | cons c l ih =>
    have hc : noStar c = true := by
      simp [noStar, h c (List.mem_cons_self c l)]
    rw [List.cons_append, List.takeWhile_cons, if_pos hc,
      ih (fun c' hc' => h c' (List.mem_cons_of_mem c hc'))]

lemma dropWhile_noStar_append (l r : List Char) (h : ∀ c ∈ l, c.toNat ≠ 42) :
    (l ++ '*' :: r).dropWhile noStar = '*' :: r := by
  induction l with
  | nil => rw [List.nil_append, List.dropWhile_cons, if_neg (by decide)]
  | cons c l ih =>
    have hc : noStar c = true := by
      simp [noStar, h c (List.mem_cons_self c l)]
    rw [List.cons_append, List.dropWhile_cons, if_pos hc,
      ih (fun c' hc' => h c' (List.mem_cons_of_mem c hc'))]

lemma splitOnComma_noComma (f : List Char) (h : ∀ c ∈ f, c.toNat ≠ 44) :
    splitOnComma f = [f] := by
  induction f with
  | nil => rfl
  | cons c f ih =>
    rw [splitOnComma, if_neg (h c (List.mem_cons_self c f)),
      ih (fun c' hc' => h c' (List.mem_cons_of_mem c hc'))]

lemma splitOnComma_append (f r : List Char) (h : ∀ c ∈ f, c.toNat ≠ 44) :
    splitOnComma (f ++ ',' :: r) = f :: splitOnComma r := by
  induction f with
  | nil => simp [splitOnComma]
  | cons c f ih =>
    rw [List.cons_append, splitOnComma, if_neg (h c (List.mem_cons_self c f)),
      ih (fun c' hc' => h c' (List.mem_cons_of_mem c hc'))]

lemma splitOnComma_intercalate :
    ∀ fs : List (List Char), fs ≠ [] →
      (∀ f ∈ fs, ∀ c ∈ f, c.toNat ≠ 44) →
      splitOnComma (intercalateComma fs) = fs := by
  intro fs
  induction fs with
  | nil => intro h; exact absurd rfl h
  | cons f fs ih =>
    intro _ h
    cases fs with
    | nil =>
      show splitOnComma f = [f]
      exact splitOnComma_noComma f (h f (by simp))
    | cons g gs =>
      show splitOnComma (f ++ ',' :: intercalateComma (g :: gs)) = f :: g :: gs
      rw [splitOnComma_append f _ (h f (by simp)),
        ih (List.cons_ne_nil g gs) (fun f' hf' => h f' (List.mem_cons_of_mem f hf'))]

/-! ## Checksum lemmas -/

lemma xorAux_lt : ∀ fuel a b : Nat, xorAux fuel a b < 2 ^ fuel := by
  intro fuel
  induction fuel with
  | zero => intro a b; simp [xorAux]
  | succ fuel ih =>
    intro a b
    have := ih (a / 2) (b / 2)
    rw [xorAux]
    split <;> · rw [pow_succ]; omega

lemma byteXor_lt (a b : Nat) : byteXor a b < 256 := xorAux_lt 8 a b

lemma calcNmeaChecksumGo_append (l r : List Char)
    (h : ∀ c ∈ l, c.toNat ≠ 42) :
    ∀ acc, calcNmeaChecksumGo acc (l ++ '*' :: r) =
      l.foldl (fun a c => byteXor a c.toNat) acc := by
  induction l with
  | nil =>
    intro acc
    simp [calcNmeaChecksumGo]
  | cons c l ih =>
    intro acc
    rw [List.cons_append, calcNmeaChecksumGo,
      if_neg (char_ne_star (h c (List.mem_cons_self c l))), List.foldl_cons]
    exact ih (fun c' hc' => h c' (List.mem_cons_of_mem c hc')) _

lemma foldl_byteXor_lt (l : List Char) :
    ∀ acc, acc < 256 → l.foldl (fun a c => byteXor a c.toNat) acc < 256 := by
  induction l with
  | nil => intro acc h; simpa using h
  | cons c l ih =>
    intro acc _
    rw [List.foldl_cons]
    exact ih _ (byteXor_lt acc c.toNat)

lemma hexDigitU_ne_star : ∀ d < 16, (hexDigitU d).toNat ≠ 42 := by decide

lemma isHexDigitU_hexDigitU : ∀ d < 16, isHexDigitU (hexDigitU d) = true := by decide

lemma hexVal_hexDigitU : ∀ d < 16, hexVal (hexDigitU d) = d := by decide

/-! ## The GGA frame: structure of the emitted sentence -/

/-- Characters of the joined field payload are ASCII and distinct from `'*'`. -/
lemma ggaBody_ok (s : FixSnapshot) :
    ∀ c ∈ intercalateComma (ggaFields s), c.toNat < 128 ∧ c.toNat ≠ 42 :=
  intercalateComma_ok (ggaFields s) (ggaFields_ok s)

lemma calcNmeaChecksum_gga (s : FixSnapshot) :
    calcNmeaChecksum (ggaSentence s) =
      (intercalateComma (ggaFields s)).foldl (fun a c => byteXor a c.toNat) 0 := by
  rw [calcNmeaChecksum, ggaSentence, List.cons_append, List.drop_one, List.tail_cons,
    calcNmeaChecksumGo_append _ [] (fun c hc => (ggaBody_ok s c hc).2)]

lemma calcNmeaChecksum_gga_lt (s : FixSnapshot) :
    calcNmeaChecksum (ggaSentence s) < 256 := by
  rw [calcNmeaChecksum_gga]
  exact foldl_byteXor_lt _ 0 (by omega)

/-- `generateGGA` produces `'$'`, the payload, `'*'`, the two checksum digits,
CRLF — the `replace("**", "*")` pass finds nothing to replace. -/
lemma generateGGA_eq (s : FixSnapshot) :
    generateGGA s =
      '$' :: intercalateComma (ggaFields s) ++
        '*' :: hexByte (calcNmeaChecksum (ggaSentence s)) ++ ['\r', '\n'] := by
  have hcs : calcNmeaChecksum (ggaSentence s) < 256 := calcNmeaChecksum_gga_lt s
  have hdiv : calcNmeaChecksum (ggaSentence s) / 16 < 16 := by omega
  have hmod : calcNmeaChecksum (ggaSentence s) % 16 < 16 := by omega
  have hrest : ∀ c ∈ hexDigitU (calcNmeaChecksum (ggaSentence s) / 16) ::
      hexDigitU (calcNmeaChecksum (ggaSentence s) % 16) :: ['\r', '\n'],
      c.toNat ≠ 42 := by
    intro c hc
    rcases List.mem_cons.mp hc with rfl | hc
    · exact hexDigitU_ne_star _ hdiv
    rcases List.mem_cons.mp hc with rfl | hc
    · exact hexDigitU_ne_star _ hmod
    rcases List.mem_cons.mp hc with rfl | hc
    · decide
    rcases List.mem_cons.mp hc with rfl | hc
    · decide
    · simp at hc
  have hbody : ∀ c ∈ '$' :: intercalateComma (ggaFields s), c.toNat ≠ 42 := by
    intro c hc
    rcases List.mem_cons.mp hc with rfl | hc
    · decide
    · exact (ggaBody_ok s c hc).2
  have harr : ggaSentence s ++ hexByte (calcNmeaChecksum (ggaSentence s)) ++ ['\r', '\n'] =
      ('$' :: intercalateComma (ggaFields s)) ++
        ('*' :: (hexByte (calcNmeaChecksum (ggaSentence s)) ++ ['\r', '\n'])) := by
    rw [ggaSentence]
    simp
  rw [generateGGA, harr, replaceStarStar_append _ _ hbody]
  have hhex : hexByte (calcNmeaChecksum (ggaSentence s)) ++ ['\r', '\n'] =
      hexDigitU (calcNmeaChecksum (ggaSentence s) / 16) ::
        hexDigitU (calcNmeaChecksum (ggaSentence s) % 16) :: ['\r', '\n'] := rfl
  rw [hhex, replaceStarStar_star_cons _ _ (hexDigitU_ne_star _ hdiv),
    replaceStarStar_self _ hrest]
  simp [hexByte]

/-- Cons-shaped restatement of `generateGGA_eq` for the parsing lemmas. -/
lemma generateGGA_cons (s : FixSnapshot) :
    generateGGA s =
      '$' :: (intercalateComma (ggaFields s) ++
        '*' :: (hexDigitU (calcNmeaChecksum (ggaSentence s) / 16) ::
          hexDigitU (calcNmeaChecksum (ggaSentence s) % 16) :: ['\r', '\n'])) := by
  rw [generateGGA_eq]
  simp [hexByte]

/-- Receiver-side checksum validation succeeds on every generated sentence. -/
lemma checksumValid_gga (s : FixSnapshot) :
    checksumValid (generateGGA s) = true := by
  have hbody : ∀ c ∈ intercalateComma (ggaFields s), c.toNat ≠ 42 :=
    fun c hc => (ggaBody_ok s c hc).2
  have hcs := calcNmeaChecksum_gga_lt s
  have hdiv : calcNmeaChecksum (ggaSentence s) / 16 < 16 := by omega
  have hmod : calcNmeaChecksum (ggaSentence s) % 16 < 16 := by omega
  rw [generateGGA_cons, checksumValid]
  rw [dropWhile_noStar_append _ _ hbody, takeWhile_noStar_append _ _ hbody]
  simp only [if_pos (show ('$').toNat = 36 from rfl)]
  rw [← calcNmeaChecksum_gga, isHexDigitU_hexDigitU _ hdiv,
    isHexDigitU_hexDigitU _ hmod, hexVal_hexDigitU _ hdiv, hexVal_hexDigitU _ hmod]
  have hsum : calcNmeaChecksum (ggaSentence s) / 16 * 16 +
      calcNmeaChecksum (ggaSentence s) % 16 = calcNmeaChecksum (ggaSentence s) := by
    omega
  rw [hsum]
  simp

/-- The receiver-side comma split recovers exactly the encoder's field list. -/
lemma sentenceFields_gga (s : FixSnapshot) :
    sentenceFields (generateGGA s) = ggaFields s := by
  have hbody : ∀ c ∈ intercalateComma (ggaFields s), c.toNat ≠ 42 :=
    fun c hc => (ggaBody_ok s c hc).2
  rw [sentenceFields, ggaPayload, generateGGA_cons, List.drop_one, List.tail_cons,
    takeWhile_noStar_append _ _ hbody]
  refine splitOnComma_intercalate (ggaFields s) ?_ ?_
  · rw [ggaFields]
    exact List.cons_ne_nil _ _
  · intro f hf c hc
    exact ((ggaFields_ok s f hf c hc).2).2

/-! ## BLE relay cadence invariant -/

lemma ggaTimes_info_cons (l : List BleMsg) : ggaTimes (.info :: l) = ggaTimes l := rfl

lemma ggaTimes_gga_cons (t : Nat) (l : List BleMsg) :
    ggaTimes (.gga t :: l) = t :: ggaTimes l := rfl

/-- Invariant of the transmit loop: successive GGA transmissions are spaced
more than 1000 ms apart (the first more than 1000 ms after `lastBleTransmit`),
and the final `lastBleTransmit` is the last transmission time. -/
lemma bleRun_chain : ∀ (evs : List BleEvent) (st : BleState),
    List.Chain (fun a b => a + 1000 < b) st.lastBleTransmit
      (ggaTimes (bleRun st evs).2) ∧
    (bleRun st evs).1.lastBleTransmit =
      (ggaTimes (bleRun st evs).2).getLastD st.lastBleTransmit := by
  intro evs
  induction evs with
  | nil =>
    intro st
    exact ⟨List.Chain.nil, rfl⟩
  | cons e evs ih =>
    intro st
    cases e with
    | connect =>
      have h := ih { st with bleConnected := true }
      simpa [bleRun, bleStep, ggaTimes_info_cons] using h
    | disconnect =>
      have h := ih { st with bleConnected := false }
      simpa [bleRun, bleStep] using h
    | tick now =>
      by_cases hc : st.bleConnected = true ∧ now - st.lastBleTransmit > 1000
      · have h := ih { st with lastBleTransmit := now }
        simp only [bleRun, bleStep, if_pos hc, List.cons_append, List.nil_append,
          ggaTimes_gga_cons] at h ⊢
        refine ⟨List.Chain.cons (by omega) h.1, ?_⟩
        rw [List.getLastD_cons]
        exact h.2
      · have h := ih st
        simp only [bleRun, bleStep, if_neg hc, List.nil_append] at h ⊢
        exact h

/-! ## Persistence cadence invariant -/

/-- Timestamps of a list of store writes. -/
def writeTimes (ws : List (Nat × ℚ × ℚ)) : List Nat := ws.map Prod.fst

/-- Invariant of the save loop: successive NVS writes are spaced more than
60000 ms apart (the first more than 60000 ms after `lastSaveTime`), and the
final `lastSaveTime` is the time of the last write. -/
lemma persistRun_chain : ∀ (evs : List (Nat × GpsSample)) (st : PersistState),
    List.Chain (fun a b => a + 60000 < b) st.lastSaveTime
      (writeTimes (persistRun st evs).2) ∧
    (persistRun st evs).1.lastSaveTime =
      (writeTimes (persistRun st evs).2).getLastD st.lastSaveTime := by
  intro evs
  induction evs with
  | nil =>
    intro st
    exact ⟨List.Chain.nil, rfl⟩
  | cons e evs ih =>
    intro st
    by_cases hv : e.2.locValid = true
    · by_cases ht : e.1 - st.lastSaveTime > 60000
      · have h := ih ⟨e.1, e.2.lat, e.2.lng, true⟩
        simp only [persistRun, persistStep, if_pos hv, if_pos ht, List.cons_append,
          List.nil_append, writeTimes, List.map_cons] at h ⊢
        refine ⟨List.Chain.cons (by omega) h.1, ?_⟩
        rw [List.getLastD_cons]
        exact h.2
      · have h := ih st
        simp only [persistRun, persistStep, if_pos hv, if_neg ht,
          List.nil_append, writeTimes] at h ⊢
        exact h
    · have h := ih st
      simp only [persistRun, persistStep, if_neg hv, List.nil_append, writeTimes] at h ⊢
      exact h

/-! ## View selector lemmas -/

lemma countShort_cons_short (evs : List ButtonEvent) :
    countShort (.shortPress :: evs) = countShort evs + 1 := by
  simp [countShort, List.filter_cons]

lemma countShort_cons_long (evs : List ButtonEvent) :
    countShort (.longPress :: evs) = countShort evs := by
  simp [countShort, List.filter_cons]

lemma uiRun_mode : ∀ (evs : List ButtonEvent) (st : UiState),
    st.currentMode < MODE_COUNT →
    (uiRun st evs).currentMode = (st.currentMode + countShort evs) % MODE_COUNT := by
  intro evs
  induction evs with
  | nil =>
    intro st h
    simp only [uiRun, List.foldl_nil, countShort, List.filter_nil, List.length_nil,
      Nat.add_zero]
    rw [Nat.mod_eq_of_lt h]
  | cons e evs ih =>
    intro st h
    cases e with
    | shortPress =>
      have h2 : (uiStep st .shortPress).currentMode < MODE_COUNT := by
        simp only [uiStep, MODE_COUNT]
        omega
      have := ih (uiStep st .shortPress) h2
      rw [uiRun, List.foldl_cons] at *
      rw [this, countShort_cons_short]
      simp only [uiStep, MODE_COUNT]
      omega
    | longPress =>
      have h2 : (uiStep st .longPress).currentMode < MODE_COUNT := h
      have := ih (uiStep st .longPress) h2
      rw [uiRun, List.foldl_cons] at *
      rw [this, countShort_cons_long]
      rfl

/-! ## Concrete field evaluations -/

lemma ratRound_eval (q : ℚ) (n : ℕ) (h : (⌊q + 1/2⌋ : ℤ) = (n : ℤ)) :
    ratRound q = n := by
  rw [ratRound, h]
  omega

lemma fmtFixed1_hdop_default : fmtFixed1 (999/10) = "99.9".toList := by
  have hm : ratRound (999/10 * 10 ^ 1) = 999 := ratRound_eval _ 999 (by norm_num)
  rw [fmtFixed1, if_neg (by norm_num)]
  simp only [fmtFixedNN, hm]
  decide

lemma fmtFixed1_zero : fmtFixed1 0 = "0.0".toList := by
  have hm : ratRound (0 * 10 ^ 1) = 0 := ratRound_eval _ 0 (by norm_num)
  rw [fmtFixed1, if_neg (by norm_num)]
  simp only [fmtFixedNN, hm]
  decide

lemma fmtFixed96_2532 : fmtFixed96 (633/25) = "25.320000".toList := by
  have hm : ratRound (633/25 * 10 ^ 6) = 25320000 :=
    ratRound_eval _ 25320000 (by norm_num)
  simp only [fmtFixed96, fmtFixedNN, hm]
  decide

/-- Latitude magnitude 37.422° encodes as degrees `37` and minutes
`25.320000`. -/
lemma ggaLatStr_37422 (s : FixSnapshot) (hv : s.location.valid = true)
    (hl : |s.location.lat| = 18711/500) :
    ggaLatStr s = "3725.320000".toList := by
  have hfloor : ⌊(18711/500 : ℚ)⌋ = 37 := by norm_num
  have ht37 : (37 : ℤ).toNat = 37 := rfl
  have harg : ((18711 : ℚ)/500 - ((37 : ℕ) : ℚ)) * 60 = 633/25 := by
    norm_num
  rw [ggaLatStr]
  simp only [hv, if_true, hl, hfloor, ht37, harg, fmtFixed96_2532]
  decide

/-! ## HDOP classification interval lemmas -/

lemma hdopClass_eq_ideal_iff (h : ℚ) : hdopClass h = .ideal ↔ h < 1 := by
  unfold hdopClass
  split_ifs with h1 h2 h5
  · exact ⟨fun _ => h1, fun _ => rfl⟩
  · exact ⟨fun hx => absurd hx (by decide), fun hx => absurd hx h1⟩
  · exact ⟨fun hx => absurd hx (by decide), fun hx => absurd hx h1⟩
  · exact ⟨fun hx => absurd hx (by decide), fun hx => absurd hx h1⟩

lemma hdopClass_eq_excellent_iff (h : ℚ) :
    hdopClass h = .excellent ↔ 1 ≤ h ∧ h < 2 := by
  unfold hdopClass
  split_ifs with h1 h2 h5
  · exact ⟨fun hx => absurd hx (by decide), fun hx => absurd hx.1 (by linarith)⟩
  · exact ⟨fun _ => ⟨by linarith, h2⟩, fun _ => rfl⟩
  · exact ⟨fun hx => absurd hx (by decide), fun hx => absurd hx.2 h2⟩
  · exact ⟨fun hx => absurd hx (by decide), fun hx => absurd hx.2 (by linarith)⟩

lemma hdopClass_eq_good_iff (h : ℚ) :
    hdopClass h = .good ↔ 2 ≤ h ∧ h < 5 := by
  unfold hdopClass
  split_ifs with h1 h2 h5
  · exact ⟨fun hx => absurd hx (by decide), fun hx => absurd hx.1 (by linarith)⟩
  · exact ⟨fun hx => absurd hx (by decide), fun hx => absurd hx.1 (by linarith)⟩
  · exact ⟨fun _ => ⟨by linarith, h5⟩, fun _ => rfl⟩
  · exact ⟨fun hx => absurd hx (by decide), fun hx => absurd hx.2 h5⟩

lemma hdopClass_eq_moderate_iff (h : ℚ) :
    hdopClass h = .moderate ↔ 5 ≤ h := by
  unfold hdopClass
  split_ifs with h1 h2 h5
  · exact ⟨fun hx => absurd hx (by decide), fun hx => absurd hx (by linarith)⟩
  · exact ⟨fun hx => absurd hx (by decide), fun hx => absurd hx (by linarith)⟩
  · exact ⟨fun hx => absurd hx (by decide), fun hx => absurd hx (by linarith)⟩
  · exact ⟨fun _ => by linarith, fun _ => rfl⟩

/-! ## Concrete snapshots and samples used as test points -/

/-- A snapshot with every field invalid (the startup state of the reconciler). -/
def snapInvalid : FixSnapshot :=
  { location := ⟨0, 0, false, .Invalid⟩, time := ⟨⟨0, 0, 0, 0⟩, false⟩,
    satellites := ⟨0, false⟩, hdop := ⟨0, false⟩, altitude := ⟨0, false⟩,
    speed := ⟨0, false⟩, course := ⟨0, false⟩ }

/-- A snapshot with a valid location at latitude 37.422°. -/
def snapLatN : FixSnapshot :=
  { snapInvalid with location := ⟨18711/500, 0, true, .GPS⟩ }

/-- A snapshot with a valid location at latitude −37.422°. -/
def snapLatS : FixSnapshot :=
  { snapInvalid with location := ⟨-(18711/500), 0, true, .GPS⟩ }

/-- A valid position sample for the persistence loop. -/
def sampleFix : GpsSample := ⟨true, 1, 2⟩

/-! ## Claim theorems -/

/-- C1: for every `FixSnapshot`, the position sentence produced by
`generateGGA` carries a valid checksum — recomputing the XOR of every byte
strictly between the leading `'$'` and the `'*'` equals the two uppercase hex
digits appended after the `'*'`. -/
theorem gga_checksum_always_valid (s : FixSnapshot) :
    checksumValid (generateGGA s) = true :=
  checksumValid_gga s

/-- C2: for every `FixSnapshot` in which no field is valid, `generateGGA`
yields fix-quality field `0`, satellite count `00`, HDOP `99.9`, altitude
`0.0`, empty latitude and longitude fields (with default hemispheres `N`/`E`
and default time `000000.000`), and the appended checksum is valid. -/
theorem gga_all_invalid_defaults (s : FixSnapshot)
    (htime : s.time.valid = false) (hloc : s.location.valid = false)
    (hsat : s.satellites.valid = false) (hhdop : s.hdop.valid = false)
    (halt : s.altitude.valid = false) (hspd : s.speed.valid = false)
    (hcrs : s.course.valid = false) :
    sentenceFields (generateGGA s) =
      ["GPGGA".toList, "000000.000".toList, [], ['N'], [], ['E'],
       ['0'], "00".toList, "99.9".toList, "0.0".toList,
       ['M'], "0.0".toList, ['M'], [], []] ∧
    checksumValid (generateGGA s) = true := by
  refine ⟨?_, checksumValid_gga s⟩
  rw [sentenceFields_gga, ggaFields]
  simp only [ggaTimeStr, ggaLatStr, ggaLatDir, ggaLonStr, ggaLonDir,
    ggaFixQuality, ggaNumSats, ggaHdop, ggaAltitude, htime, hloc, hsat, hhdop,
    halt, Bool.false_eq_true, if_false, fmtFixed1_hdop_default, fmtFixed1_zero]
  decide

/-- C2 witness: the all-invalid snapshot produces exactly the default
sentence fields and a valid checksum. -/
theorem gga_all_invalid_defaults_witness :
    sentenceFields (generateGGA snapInvalid) =
      ["GPGGA".toList, "000000.000".toList, [], ['N'], [], ['E'],
       ['0'], "00".toList, "99.9".toList, "0.0".toList,
       ['M'], "0.0".toList, ['M'], [], []] ∧
    checksumValid (generateGGA snapInvalid) = true :=
  gga_all_invalid_defaults snapInvalid rfl rfl rfl rfl rfl rfl rfl

/-- C3 counterexample: at the all-invalid snapshot, the four fields following
the altitude-units field are `0.0`, `M`, ``, `` — not four empty fields, so
the sentence does not contain two empty geoid fields after the altitude and
its units. -/
theorem gga_geoid_fields_counterexample :
    ¬ ((sentenceFields (generateGGA snapInvalid)).drop 11 = [[], [], [], []]) := by
  rw [sentenceFields_gga snapInvalid, ggaFields]
  decide

/-- C3 amended: for every `FixSnapshot`, after the altitude field the sentence
carries the units field `M`, a geoid-separation field hard-coded to `0.0` with
its units field `M`, and then two empty differential-age/station fields,
before the `'*'` and checksum. -/
theorem gga_trailing_fields (s : FixSnapshot) :
    (sentenceFields (generateGGA s)).drop 10 =
      [['M'], "0.0".toList, ['M'], [], []] := by
  rw [sentenceFields_gga, ggaFields]
  rfl

/-- C4: with a valid location, latitude 37.422° encodes as latitude field
`3725.320000` with hemisphere `N`, and latitude −37.422° encodes as the
identical digits with hemisphere `S`. -/
theorem gga_lat_encoding :
    (∀ s : FixSnapshot, s.location.valid = true → s.location.lat = 18711/500 →
       (sentenceFields (generateGGA s))[2]? = some "3725.320000".toList ∧
       (sentenceFields (generateGGA s))[3]? = some ['N']) ∧
    (∀ s : FixSnapshot, s.location.valid = true → s.location.lat = -(18711/500) →
       (sentenceFields (generateGGA s))[2]? = some "3725.320000".toList ∧
       (sentenceFields (generateGGA s))[3]? = some ['S']) := by
  constructor
  · intro s hv hl
    have habs : |s.location.lat| = 18711/500 := by
      rw [hl]
      exact abs_of_nonneg (by norm_num)
    rw [sentenceFields_gga, ggaFields]
    refine ⟨?_, ?_⟩
    · simp [ggaLatStr_37422 s hv habs]
    · rw [ggaLatDir]
      simp only [hv, if_true, hl]
      rw [if_pos (by norm_num)]
      simp
  · intro s hv hl
    have habs : |s.location.lat| = 18711/500 := by
      rw [hl, abs_neg]
      exact abs_of_nonneg (by norm_num)
    rw [sentenceFields_gga, ggaFields]
    refine ⟨?_, ?_⟩
    · simp [ggaLatStr_37422 s hv habs]
    · rw [ggaLatDir]
      simp only [hv, if_true, hl]
      rw [if_neg (by norm_num)]
      simp

/-- C4 witness: the two concrete snapshots at ±37.422° produce the claimed
latitude field and hemisphere letters. -/
theorem gga_lat_encoding_witness :
    ((sentenceFields (generateGGA snapLatN))[2]? = some "3725.320000".toList ∧
     (sentenceFields (generateGGA snapLatN))[3]? = some ['N']) ∧
    ((sentenceFields (generateGGA snapLatS))[2]? = some "3725.320000".toList ∧
     (sentenceFields (generateGGA snapLatS))[3]? = some ['S']) :=
  ⟨gga_lat_encoding.1 snapLatN rfl rfl, gga_lat_encoding.2 snapLatS rfl rfl⟩

/-- C5: a connect event followed immediately by a disconnect emits exactly one
identification sentence and no position sentence (also when a loop tick falls
in between but the 1000 ms transmit interval has not elapsed); and over any
event sequence, position sentences are emitted at most once per 1000 ms
interval. -/
theorem ble_lifecycle :
    (∀ st : BleState, (bleRun st [.connect, .disconnect]).2 = [.info]) ∧
    (∀ (st : BleState) (t : Nat), t ≤ st.lastBleTransmit + 1000 →
       (bleRun st [.connect, .tick t, .disconnect]).2 = [.info]) ∧
    (∀ (st : BleState) (evs : List BleEvent),
       List.Chain (fun a b => a + 1000 < b) st.lastBleTransmit
         (ggaTimes (bleRun st evs).2)) := by
  refine ⟨fun st => rfl, ?_, fun st evs => (bleRun_chain evs st).1⟩
  intro st t h
  have hc : ¬ (1000 < t - st.lastBleTransmit) := by omega
  simp [bleRun, bleStep, hc]

/-- C5 witness: from an idle state, connect–tick(500 ms)–disconnect emits the
identification sentence only. -/
theorem ble_lifecycle_witness :
    (bleRun ⟨false, 0⟩ [.connect, .tick 500, .disconnect]).2 = [.info] :=
  ble_lifecycle.2.1 ⟨false, 0⟩ 500 (by decide)

/-- C6 counterexample: from the boot state (`lastSaveTime = 0`), valid fixes
at 100 ms and 70000 ms are separated by 69900 ms > 60000 ms, yet only the
second is written (the first falls inside the initial interval), so the two
fixes are not each written. -/
theorem persist_each_written_counterexample :
    (persistRun ⟨0, 0, 0, false⟩ [(100, sampleFix), (70000, sampleFix)]).2 =
      [(70000, 1, 2)] ∧
    70000 - 100 > 60000 ∧
    ((persistRun ⟨0, 0, 0, false⟩ [(100, sampleFix), (70000, sampleFix)]).2).length ≠ 2 := by
  refine ⟨?_, by omega, ?_⟩ <;> simp [persistRun, persistStep, sampleFix]

/-- C6 amended: positions are written at most once per 60000 ms interval
(successive writes are spaced more than 60000 ms apart); two valid samples of
the same coordinates within one interval cause at most one write; and a valid
fix observed more than 60000 ms after the recorded `lastSaveTime` (the time of
the previous write, initially the boot value 0) is always written. -/
theorem persistence_cadence :
    (∀ (st : PersistState) (evs : List (Nat × GpsSample)),
       List.Chain (fun a b => a + 60000 < b) st.lastSaveTime
         (writeTimes (persistRun st evs).2)) ∧
    (∀ (st : PersistState) (t1 t2 : Nat) (g : GpsSample), t2 ≤ t1 + 60000 →
       ((persistRun st [(t1, g), (t2, g)]).2).length ≤ 1) ∧
    (∀ (st : PersistState) (now : Nat) (g : GpsSample), g.locValid = true →
       st.lastSaveTime + 60000 < now →
       (persistStep st now g).2 = [(now, g.lat, g.lng)]) := by
  refine ⟨fun st evs => (persistRun_chain evs st).1, ?_, ?_⟩
  · intro st t1 t2 g h
    by_cases hv : g.locValid = true
    · by_cases ht1 : t1 - st.lastSaveTime > 60000
      · have ht2 : ¬ (t2 - (⟨t1, g.lat, g.lng, true⟩ : PersistState).lastSaveTime > 60000) := by
          simp only [not_lt]
          omega
        simp [persistRun, persistStep, hv, ht1, ht2]
      · by_cases ht2 : t2 - st.lastSaveTime > 60000 <;>
          simp [persistRun, persistStep, hv, ht1, ht2]
    · simp [persistRun, persistStep, hv]
  · intro st now g hv hnow
    rw [persistStep, if_pos hv, if_pos (by omega)]

/-- C6 witness: a valid fix arriving 70000 ms after a last save at 0 ms is
written. -/
theorem persistence_cadence_witness :
    (persistStep ⟨0, 0, 0, false⟩ 70000 sampleFix).2 = [(70000, 1, 2)] :=
  persistence_cadence.2.2 ⟨0, 0, 0, false⟩ 70000 sampleFix rfl (by decide)

/-- C7: starting from `MODE_MAIN` (mode 0), any event sequence whose number of
short presses is a multiple of the mode count 3 returns the display mode to
`MODE_MAIN`, and a long press never changes the display mode (it only cycles
the brightness index). -/
theorem display_mode_cycling :
    (∀ (evs : List ButtonEvent) (b : Nat), countShort evs % MODE_COUNT = 0 →
       (uiRun ⟨0, b⟩ evs).currentMode = 0) ∧
    (∀ st : UiState, (uiStep st .longPress).currentMode = st.currentMode ∧
       (uiStep st .longPress).brightnessIndex =
         (st.brightnessIndex + 1) % BRIGHTNESS_COUNT) := by
  refine ⟨?_, fun st => ⟨rfl, rfl⟩⟩
  intro evs b h
  have hm := uiRun_mode evs ⟨0, b⟩ (by show (0 : Nat) < MODE_COUNT; decide)
  rw [hm]
  replace h : countShort evs % 3 = 0 := h
  show ((0 : Nat) + countShort evs) % 3 = 0
  omega

/-- C7 witness: three short presses with a long press interleaved return the
mode to `MODE_MAIN`. -/
theorem display_mode_cycling_witness :
    (uiRun ⟨0, 0⟩ [.shortPress, .longPress, .shortPress, .shortPress]).currentMode = 0 :=
  display_mode_cycling.1 [.shortPress, .longPress, .shortPress, .shortPress] 0 (by decide)

/-- C8: for every valid (nonnegative) HDOP value, the display color class is
chosen by the half-open intervals `[0,1)` ideal, `[1,2)` excellent, `[2,5)`
good, `[5,∞)` moderate; in particular 0.99, 1.99, 4.99, 5.01 map to ideal,
excellent, good, moderate respectively. -/
theorem hdop_color_classes :
    (∀ h : ℚ, 0 ≤ h →
       ((hdopClass h = .ideal ↔ h < 1) ∧
        (hdopClass h = .excellent ↔ 1 ≤ h ∧ h < 2) ∧
        (hdopClass h = .good ↔ 2 ≤ h ∧ h < 5) ∧
        (hdopClass h = .moderate ↔ 5 ≤ h))) ∧
    hdopClass (99/100) = .ideal ∧ hdopClass (199/100) = .excellent ∧
    hdopClass (499/100) = .good ∧ hdopClass (501/100) = .moderate := by
  refine ⟨fun h _ => ⟨hdopClass_eq_ideal_iff h, hdopClass_eq_excellent_iff h,
    hdopClass_eq_good_iff h, hdopClass_eq_moderate_iff h⟩, ?_, ?_, ?_, ?_⟩
  · exact (hdopClass_eq_ideal_iff _).mpr (by norm_num)
  · exact (hdopClass_eq_excellent_iff _).mpr (by norm_num)
  · exact (hdopClass_eq_good_iff _).mpr (by norm_num)
  · exact (hdopClass_eq_moderate_iff _).mpr (by norm_num)

/-- C8 witness: the interval characterization applied at HDOP 0.99 gives the
ideal class. -/
theorem hdop_color_classes_witness : hdopClass (99/100) = HdopClass.ideal :=
  ((hdop_color_classes.1 (99/100) (by norm_num)).1).mpr (by norm_num)

/-- C9: `generateGGA` ignores the sensor's fix-quality classification — the
sentence is unchanged under any classification — and its fix-quality field is
`1` exactly when the location is valid and `0` otherwise, never any other
code. -/
theorem gga_fix_quality_binary :
    (∀ (s : FixSnapshot) (q : FixQualityClass),
       generateGGA { s with location := { s.location with fixQuality := q } } =
         generateGGA s) ∧
    (∀ s : FixSnapshot,
       (sentenceFields (generateGGA s))[6]? =
         some (if s.location.valid then ['1'] else ['0'])) := by
  refine ⟨fun s q => rfl, ?_⟩
  intro s
  rw [sentenceFields_gga, ggaFields]
  cases hv : s.location.valid <;> simp [ggaFixQuality, hv] <;> decide

/-- C10: the startup NVS load sets `hasLastPosition` to false when the stored
coordinates are both exactly zero, and to true exactly when at least one
stored coordinate is nonzero. -/
theorem load_position_zero_discarded :
    (loadLastPosition (some (0, 0))).2.2 = false ∧
    (∀ lat lng : ℚ,
       ((loadLastPosition (some (lat, lng))).2.2 = true ↔ (lat ≠ 0 ∨ lng ≠ 0))) := by
  constructor
  · simp [loadLastPosition]
  · intro lat lng
    simp [loadLastPosition]

end GPSAtomS3
